import Mathlib

/-!
Verification of the role-aware retrieval core of a résumé question-answering
application. The development shallowly embeds the Python functions

  * `process_pdfs`'s per-page role tagging loop (src/document_processor/loader.py),
  * `get_resume_by_role` and `extract_resume_info` (src/utils/resume_info.py),
  * `extract_person_name_from_query` and `filter_sources_by_context`
    (src/interface/tabs.py),

as executable Lean definitions, plus a model of the text segmenter that the
repository delegates to an external library, and proves the specified
properties about them.
-/

namespace ResumeAssistant

/-! ## Basic string utilities

Python's `sub in s` substring test, `str.lower`, and `str.split()` are used
throughout the embedded functions; we model them over `List Char` / `String`.
-/

/-- `isSubAt sub l` : `sub` is a prefix of `l` (character-wise equality). -/
def isSubAt : List Char → List Char → Bool
  | [], _ => true
  | _ :: _, [] => false
  | a :: as, b :: bs => a == b && isSubAt as bs

/-- `containsSubList sub l` : `sub` occurs contiguously somewhere in `l`
(Python's `sub in l` on strings; the empty `sub` occurs in everything). -/
def containsSubList (sub : List Char) : List Char → Bool
  | [] => isSubAt sub []
  | c :: t => isSubAt sub (c :: t) || containsSubList sub t

/-- Python's `sub in s` substring test on strings. -/
def containsSub (s sub : String) : Bool := containsSubList sub.toList s.toList

/-- One step of Python's `str.split()`: group non-whitespace runs, a whitespace
character closes the current group. -/
def splitStep (isSp : Char → Bool) (c : Char) (acc : List (List Char)) : List (List Char) :=
  if isSp c then [] :: acc
  else
    match acc with
    | [] => [[c]]
    | g :: gs => (c :: g) :: gs

/-- Python's `str.split()` with no argument: split on runs of whitespace,
discarding empty pieces. -/
def pySplit (isSp : Char → Bool) (l : List Char) : List String :=
  ((l.foldr (splitStep isSp) []).filter (fun g => !g.isEmpty)).map String.mk

/-- Python's `str.lower()` (ASCII range, which is all the embedded code relies
on): lower-case every character. -/
def strLower (s : String) : String := String.mk (s.toList.map Char.toLower)

/-! ## Data model

A `Doc` is a langchain `Document` as the embedded functions see it:
`page_content` plus the metadata keys they read (`role`, `filename`); a
metadata key may be absent (`none`), matching `metadata.get(...)`. -/

structure Doc where
  page_content : String
  role : Option String := none
  filename : Option String := none
deriving DecidableEq, Repr

/-! ## Role Tagger (src/document_processor/loader.py, `process_pdfs` lines 31-54)

`process_pdfs` tags each loaded page with a role by scanning a fixed
`role_keywords` dict (Python dicts iterate in declaration order) and taking the
first role any of whose keywords occurs in the lower-cased page content or the
lower-cased filename; if none hits, the sentinel `"Unknown Role"` is used. -/

/-- The `role_keywords` dict of `process_pdfs`, in its declared order. -/
def role_keywords : List (String × List String) :=
  [ ("AI Engineer", ["ai engineer", "artificial intelligence engineer",
                     "machine learning engineer", "ml engineer"]),
    ("Geomatics Engineer", ["geomatics engineer", "geomatics", "geospatial engineer",
                            "geodetic engineer"]),
    ("Data Scientist", ["data scientist", "data science", "analytics scientist",
                        "data analyst"]),
    ("Software Engineer", ["software engineer", "software developer", "programmer",
                           "developer"]),
    ("UI/UX Designer", ["ui designer", "ux designer", "ui/ux", "user interface",
                        "user experience", "product designer"]),
    ("Project Manager", ["project manager", "program manager", "product manager",
                         "scrum master"]),
    ("DevOps Engineer", ["devops", "devops engineer", "site reliability engineer",
                         "sre"]),
    ("Business Analyst", ["business analyst", "business analytics", "systems analyst"]),
    ("Network Engineer", ["network engineer", "network administrator",
                          "network architect"]) ]

/-- `any(keyword in content_lower for keyword in keywords) or
any(keyword in filename.lower() for keyword in keywords)` for one role's
keyword list (both arguments already lower-cased). -/
def roleHit (content_lower filename_lower : String) (kws : List String) : Bool :=
  kws.any (fun k => containsSub content_lower k) ||
    kws.any (fun k => containsSub filename_lower k)

/-- The role-assignment loop of `process_pdfs`: start from `"Unknown Role"`,
walk `role_keywords` in order, and `break` at the first role with a keyword
hit in the page content or the filename. -/
def assign_role (page_content filename : String) : String :=
  match role_keywords.find?
      (fun rk => roleHit (strLower page_content) (strLower filename) rk.2) with
  | some rk => rk.1
  | none => "Unknown Role"

/-- The closed label set of the spec: the nine declared roles plus the
`"Unknown Role"` sentinel. -/
def allRoleLabels : List String := role_keywords.map Prod.fst ++ ["Unknown Role"]

/-! ## Vector index interface and retrieval utilities (src/utils/resume_info.py)

The utilities call `vectorstore.similarity_search(query=..., k=..., filter=...)`,
which may raise; we model the backend as a function from those three arguments
to `Except` (error string, or ranked document list). The backend is entirely
unconstrained — in particular it may ignore the metadata filter, which is why
the utilities post-filter in process. -/

/-- The similarity-search backend: `search query k roleOrNothing`. -/
abbrev Search : Type := String → Nat → Option String → Except String (List Doc)

/-- `doc.metadata.get('filename', 'unknown')`. -/
def metaFilename (d : Doc) : String := d.filename.getD "unknown"

/-- One step of the `defaultdict` grouping loop of `get_resume_by_role`:
append `d` to the group of its filename, creating the group at the end on
first sight (Python dicts preserve insertion order). The embedding keeps the
whole document in each group where the Python code appends only
`doc.page_content`; `resumesValue` below projects to the exact Python value. -/
def addDocToGroups (acc : List (String × List Doc)) (d : Doc) :
    List (String × List Doc) :=
  if acc.any (fun p => p.1 == metaFilename d) then
    acc.map (fun p => if p.1 == metaFilename d then (p.1, p.2 ++ [d]) else p)
  else acc ++ [(metaFilename d, [d])]

/-- The `for doc in filtered_docs: resumes[filename]['content'].append(...)`
grouping loop. -/
def groupByFilename (ds : List Doc) : List (String × List Doc) :=
  ds.foldl addDocToGroups []

/-- `get_resume_by_role(vectorstore, role)`: search `f"role {role}"` with
`k=50` (passing the `{"role": role}` filter only when the store has a
`filter` attribute), post-filter by exact role metadata, fall back to an
unfiltered `k=100` search for the bare role string re-applying the same exact
filter, then group by filename. A raised backend exception is caught: an
`st.error` message is emitted and the empty dict is returned. The result pair
is (messages shown via `st.error`, grouped mapping). -/
def get_resume_by_role (search : Search) (hasFilterAttr : Bool) (role : String) :
    List String × List (String × List Doc) :=
  match search ("role " ++ role) 50 (if hasFilterAttr then some role else none) with
  | .error e => (["Error retrieving resumes by role: " ++ e], [])
  | .ok docs =>
    let filtered_docs := docs.filter (fun d => decide (d.role = some role))
    if filtered_docs.isEmpty then
      match search role 100 none with
      | .error e => (["Error retrieving resumes by role: " ++ e], [])
      | .ok all_docs =>
        ([], groupByFilename (all_docs.filter (fun d => decide (d.role = some role))))
    else ([], groupByFilename filtered_docs)

/-- The dict value Python builds: filename ↦ `{'role': requested role,
'content': list of chunk texts}`. -/
def resumesValue (role : String) (groups : List (String × List Doc)) :
    List (String × String × List String) :=
  groups.map (fun p => (p.1, role, p.2.map Doc.page_content))

/-- The record `extract_resume_info` builds on success. -/
structure ResumeInfo where
  filename : String
  role : String
  content : String
  chunks : Nat
deriving DecidableEq, Repr

/-- `extract_resume_info(vectorstore, filename)`: one similarity search
(query `f"filename {filename}"`, `k=20`, no filter argument), in-process
filter by exact filename metadata, `None` when nothing matches, otherwise a
record taking the role from the FIRST matching chunk, the space-joined
content, and the matching-chunk count. A raised backend exception is caught:
an `st.error` message is emitted and `None` is returned. The result pair is
(messages shown via `st.error`, optional record). -/
def extract_resume_info (search : Search) (filename : String) :
    List String × Option ResumeInfo :=
  match search ("filename " ++ filename) 20 none with
  | .error e => (["Error extracting resume info: " ++ e], none)
  | .ok docs =>
    match docs.filter (fun d => decide (d.filename = some filename)) with
    | [] => ([], none)
    | d :: rest =>
      ([], some { filename := filename
                , role := d.role.getD "Unknown Role"
                , content := String.intercalate " " ((d :: rest).map Doc.page_content)
                , chunks := (d :: rest).length })

/-! ## Concrete backends used as witnesses / counterexamples -/

/-- A backend that always succeeds with no results. -/
def emptySearch : Search := fun _ _ _ => .ok []

/-- A backend that always raises. -/
def failingSearch : Search := fun _ _ _ => .error "backend unavailable"

/-- A chunk of the file "mixed.pdf" tagged AI Engineer. -/
def docMixA : Doc :=
  { page_content := "page one", role := some "AI Engineer", filename := some "mixed.pdf" }

/-- A second chunk of the same file "mixed.pdf", tagged Data Scientist
(per-page tagging can disagree across pages of one file). -/
def docMixB : Doc :=
  { page_content := "page two", role := some "Data Scientist", filename := some "mixed.pdf" }

/-- A backend returning the two mixed-role chunks, in that ranked order. -/
def mixedSearch : Search := fun _ _ _ => .ok [docMixA, docMixB]

/-- A backend whose `k = 20` call shape (the one `extract_resume_info`
makes) returns nothing, while the broadened `k = 100` call shape (the one
`get_resume_by_role`'s fallback tier makes) returns a chunk of "mixed.pdf". -/
def tieredSearch : Search := fun _ k _ => if k == 20 then .ok [] else .ok [docMixA]

/-! ## Source attribution filter (src/interface/tabs.py)

`extract_person_name_from_query` runs `re.findall` with the pattern
`\b([A-Z][a-z]+\s+[A-Z][a-z]+)\b` over the query and returns the first match
(a second pattern, `\b([A-Z][a-z]+)\s+([A-Z][a-z]+)\b`, is only consulted
when the first found nothing, and it matches exactly the same strings, so it
never fires; a computed `query_lower` is likewise never used). We model the
regex directly: the greedy character-class runs need no backtracking, because
shortening a maximal `[a-z]+` run leaves a lower-case (word) character next,
re-failing the following `\s` or `\b`, and shortening a maximal `\s+` run
leaves a whitespace character next, re-failing `[A-Z]`. -/

/-- A Python regex word character (the basis of `\b`), ASCII range. -/
def isWordChar (c : Char) : Bool := c.isAlphanum || c == '_'

/-- The regex class `[A-Z]`. -/
def isUpperAZ (c : Char) : Bool := decide ('A' ≤ c) && decide (c ≤ 'Z')

/-- The regex class `[a-z]`. -/
def isLowerAZ (c : Char) : Bool := decide ('a' ≤ c) && decide (c ≤ 'z')

/-- Python's regex `\s`, ASCII range. -/
def isPySpace (c : Char) : Bool :=
  c == ' ' || c == '\t' || c == '\n' || c == '\r' || c == '\x0b' || c == '\x0c'

/-- Match `[A-Z][a-z]+\s+[A-Z][a-z]+\b` at the head of `l` (the scanner
guarantees the head sits at a word boundary), returning the matched text. -/
def nameAt (l : List Char) : Option (List Char) :=
  match l with
  | [] => none
  | c :: rest =>
    if isUpperAZ c then
      let (low1, r1) := rest.span isLowerAZ
      if low1.isEmpty then none
      else
        let (ws, r2) := r1.span isPySpace
        if ws.isEmpty then none
        else
          match r2 with
          | [] => none
          | c2 :: r3 =>
            if isUpperAZ c2 then
              let (low2, r4) := r3.span isLowerAZ
              if low2.isEmpty then none
              else
                match r4 with
                | [] => some (c :: low1 ++ ws ++ c2 :: low2)
                | e :: _ =>
                  if isWordChar e then none
                  else some (c :: low1 ++ ws ++ c2 :: low2)
            else none
    else none

/-- Left-to-right scan for the first word-boundary position where the name
pattern matches: the first element of `re.findall`. `prevIsWord` records
whether the previous character was a word character (`false` at the start of
the string). -/
def findName (prevIsWord : Bool) : List Char → Option (List Char)
  | [] => none
  | c :: rest =>
    match if prevIsWord then none else nameAt (c :: rest) with
    | some m => some m
    | none => findName (isWordChar c) rest

/-- `extract_person_name_from_query(query)`: the first
two-consecutive-capitalized-word match in the query, or `None`. -/
def extract_person_name_from_query (query : String) : Option String :=
  (findName false query.toList).map String.mk

/-- Python truthiness of an optional string (`if not person_name` treats both
`None` and the empty string as false). -/
def strOptTruthy : Option String → Bool
  | none => false
  | some s => !(s == "")

/-- One candidate test of `filter_sources_by_context`: does some
whitespace-delimited component of `person_name` occur, case-insensitively, in
the document's filename metadata (`metadata.get('filename', '').lower()`)? -/
def nameMatches (person_name : String) (d : Doc) : Bool :=
  (pySplit isPySpace person_name.toList).any
    (fun part => containsSub (strLower (d.filename.getD "")) (strLower part))

/-- `filter_sources_by_context(sources, query, person_name=None)`: extract a
person name from the query when none was passed; when a (truthy) name is
available, narrow the sources to those whose filename contains a component of
the name, but fall back to the original sources when the narrowing is empty
or no name is available. -/
def filter_sources_by_context (sources : List Doc) (query : String)
    (person_name : Option String) : List Doc :=
  let pn := if strOptTruthy person_name then person_name
            else extract_person_name_from_query query
  if strOptTruthy pn then
    let filtered_sources := sources.filter (nameMatches (pn.getD ""))
    if filtered_sources.isEmpty then sources else filtered_sources
  else sources

/-- The chunk of "jane_smith_resume.pdf" from the spec's C5 scenario. -/
def docJaneSmith : Doc :=
  { page_content := "jane smith text", role := some "Data Scientist",
    filename := some "jane_smith_resume.pdf" }

/-- The chunk of "john_doe_resume.pdf" from the spec's C5 scenario. -/
def docJohnDoe : Doc :=
  { page_content := "john doe text", role := some "Software Engineer",
    filename := some "john_doe_resume.pdf" }

/-- `List.find?` returns the element at the first index satisfying the
predicate. -/
theorem find?_eq_get_of_first {α : Type} (p : α → Bool) :
    ∀ (l : List α) (i : Nat) (hi : i < l.length),
      p (l.get ⟨i, hi⟩) = true →
      (∀ j (hj : j < i), p (l.get ⟨j, Nat.lt_trans hj hi⟩) = false) →
      l.find? p = some (l.get ⟨i, hi⟩) := by
  intro l
  induction l with
  | nil => intro i hi; simp at hi
  | cons a t ih =>
    intro i hi hp hbefore
    cases i with
    | zero =>
      simp at hp
      simp [List.find?, hp]
    | succ n =>
      have ha : p a = false := hbefore 0 (Nat.succ_pos n)
      simp [List.find?, ha]
      exact ih n (Nat.lt_of_succ_lt_succ hi) hp
        (fun j hj => hbefore (j + 1) (Nat.succ_lt_succ hj))

/-- C2: when keywords of several roles occur in the text or filename (in
particular a text containing both "ai engineer" and "data scientist"), the
role tagger assigns the role appearing first in the declared enumeration
order: the first role of `role_keywords` with any keyword hit in either the
text or the filename wins. -/
theorem assign_role_first_hit_wins (text filename : String) (i : Nat)
    (hi : i < role_keywords.length)
    (hhit : roleHit (strLower text) (strLower filename) (role_keywords.get ⟨i, hi⟩).2 = true)
    (hbefore : ∀ j (hj : j < i),
      roleHit (strLower text) (strLower filename)
        (role_keywords.get ⟨j, Nat.lt_trans hj hi⟩).2 = false) :
    assign_role text filename = (role_keywords.get ⟨i, hi⟩).1 := by
  unfold assign_role
  rw [find?_eq_get_of_first _ role_keywords i hi hhit hbefore]

/-- Witness for C2: a text containing both "ai engineer" (an AI Engineer
keyword, enumeration index 0) and "data scientist" (a Data Scientist keyword,
enumeration index 2) is tagged "AI Engineer". -/
theorem assign_role_first_hit_wins_witness :
    assign_role "worked as an ai engineer and as a data scientist" "cv.pdf" = "AI Engineer" :=
  assign_role_first_hit_wins "worked as an ai engineer and as a data scientist" "cv.pdf" 0
    (by decide) (by decide) (fun j hj => absurd hj (Nat.not_lt_zero j))

/-- C6: when no keyword of any role occurs in the (lower-cased) text or
filename the tagger assigns the sentinel "Unknown Role"; and in every case
the assigned role is one of the ten labels of the closed enumeration. -/
theorem assign_role_unknown_and_closed (text filename : String) :
    ((∀ rk ∈ role_keywords, roleHit (strLower text) (strLower filename) rk.2 = false) →
      assign_role text filename = "Unknown Role") ∧
    assign_role text filename ∈ allRoleLabels := by
  constructor
  · intro h
    unfold assign_role
    have hn : role_keywords.find?
        (fun rk => roleHit (strLower text) (strLower filename) rk.2) = none := by
      rw [List.find?_eq_none]
      intro x hx
      simp [h x hx]
    rw [hn]
  · unfold assign_role allRoleLabels
    cases hf : role_keywords.find?
        (fun rk => roleHit (strLower text) (strLower filename) rk.2) with
    | none => simp
    | some rk =>
      have hmem : rk ∈ role_keywords := List.mem_of_find?_eq_some hf
      simp only [List.mem_append, List.mem_singleton]
      exact Or.inl (List.mem_map_of_mem Prod.fst hmem)

/-- Witness for C6: a text and filename hitting no keyword of any role are
tagged "Unknown Role" (which is in the closed label set). -/
theorem assign_role_unknown_and_closed_witness :
    assign_role "completely unrelated text" "nothing.pdf" = "Unknown Role" :=
  (assign_role_unknown_and_closed "completely unrelated text" "nothing.pdf").1 (by decide)

/-- Every document in a group of `addDocToGroups acc x` was already in a
group of `acc`, or is `x` itself. -/
theorem mem_addDocToGroups (acc : List (String × List Doc)) (x d : Doc)
    (fn : String) (g : List Doc)
    (hg : (fn, g) ∈ addDocToGroups acc x) (hd : d ∈ g) :
    (∃ g', (fn, g') ∈ acc ∧ d ∈ g') ∨ d = x := by
  unfold addDocToGroups at hg
  by_cases hany : acc.any (fun p => p.1 == metaFilename x)
  · rw [if_pos hany, List.mem_map] at hg
    obtain ⟨p, hp, hep⟩ := hg
    by_cases hp1 : p.1 == metaFilename x
    · rw [if_pos hp1] at hep
      cases hep
      rcases List.mem_append.mp hd with h | h
      · exact Or.inl ⟨p.2, by simpa using hp, h⟩
      · exact Or.inr (List.mem_singleton.mp h)
    · rw [if_neg hp1] at hep
      exact Or.inl ⟨g, hep ▸ hp, hd⟩
  · rw [if_neg hany, List.mem_append] at hg
    rcases hg with h | h
    · exact Or.inl ⟨g, h, hd⟩
    · have hgx : g = [x] := (Prod.mk.injEq _ _ _ _ ▸ List.mem_singleton.mp h).2
      exact Or.inr (List.mem_singleton.mp (hgx ▸ hd))

/-- Every document in a group of the grouping fold is in the input list or
was in a group of the initial accumulator. -/
theorem mem_foldl_addDocToGroups (l : List Doc) :
    ∀ (acc : List (String × List Doc)) (fn : String) (g : List Doc) (d : Doc),
      (fn, g) ∈ l.foldl addDocToGroups acc → d ∈ g →
      (∃ g', (fn, g') ∈ acc ∧ d ∈ g') ∨ d ∈ l := by
  induction l with
  | nil => exact fun acc fn g d hg hd => Or.inl ⟨g, hg, hd⟩
  | cons x t ih =>
    intro acc fn g d hg hd
    rcases ih (addDocToGroups acc x) fn g d hg hd with ⟨g', hg', hd'⟩ | hdt
    · rcases mem_addDocToGroups acc x d fn g' hg' hd' with h | h
      · exact Or.inl h
      · exact Or.inr (h ▸ List.mem_cons_self x t)
    · exact Or.inr (List.mem_cons_of_mem x hdt)

/-- Every document in a group of `groupByFilename l` is in `l`. -/
theorem mem_groupByFilename (l : List Doc) (fn : String) (g : List Doc) (d : Doc)
    (hg : (fn, g) ∈ groupByFilename l) (hd : d ∈ g) : d ∈ l := by
  rcases mem_foldl_addDocToGroups l [] fn g d hg hd with ⟨g', hg', _⟩ | h
  · simp at hg'
  · exact h

/-- C1: for every backend behavior (in particular one that ignores the
metadata filter) every chunk in any file's content list of the mapping
returned by `get_resume_by_role` carries role metadata exactly the requested
role; the broadened fallback tier passes through the same exact filter. -/
theorem get_resume_by_role_role_invariant (search : Search) (hasFilterAttr : Bool)
    (role fn : String) (g : List Doc) (d : Doc)
    (hg : (fn, g) ∈ (get_resume_by_role search hasFilterAttr role).2) (hd : d ∈ g) :
    d.role = some role := by
  unfold get_resume_by_role at hg
  split at hg
  · simp at hg
  · dsimp only at hg
    split at hg
    · split at hg
      · simp at hg
      · have hmem := mem_groupByFilename _ fn g d (by simpa using hg) hd
        exact of_decide_eq_true (List.mem_filter.mp hmem).2
    · have hmem := mem_groupByFilename _ fn g d (by simpa using hg) hd
      exact of_decide_eq_true (List.mem_filter.mp hmem).2

/-- Witness for C1: with the mixed-role backend, the "AI Engineer" mapping
contains only the chunk tagged AI Engineer, whose role metadata matches. -/
theorem get_resume_by_role_role_invariant_witness :
    docMixA.role = some "AI Engineer" :=
  get_resume_by_role_role_invariant mixedSearch true "AI Engineer" "mixed.pdf"
    [docMixA] docMixA (by decide) (by decide)

/-- C3: for a role no retrieved chunk of either search tier carries,
`get_resume_by_role` returns the empty mapping, with no error reported. -/
theorem get_resume_by_role_empty (search : Search) (hasFilterAttr : Bool)
    (role : String) (docs1 docs2 : List Doc)
    (h1 : search ("role " ++ role) 50 (if hasFilterAttr then some role else none) = .ok docs1)
    (h2 : search role 100 none = .ok docs2)
    (hno1 : ∀ d ∈ docs1, d.role ≠ some role)
    (hno2 : ∀ d ∈ docs2, d.role ≠ some role) :
    get_resume_by_role search hasFilterAttr role = ([], []) := by
  have hf1 : docs1.filter (fun d => decide (d.role = some role)) = [] := by
    rw [List.filter_eq_nil_iff]
    intro d hd
    simp [hno1 d hd]
  have hf2 : docs2.filter (fun d => decide (d.role = some role)) = [] := by
    rw [List.filter_eq_nil_iff]
    intro d hd
    simp [hno2 d hd]
  unfold get_resume_by_role
  rw [h1]
  dsimp only
  rw [hf1, h2]
  dsimp only
  rw [hf2]
  rfl

/-- Witness for C3: a backend with no results at all yields the empty
mapping and no error. -/
theorem get_resume_by_role_empty_witness :
    get_resume_by_role emptySearch true "AI Engineer" = ([], []) :=
  get_resume_by_role_empty emptySearch true "AI Engineer" [] [] rfl rfl
    (fun d hd => absurd hd (List.not_mem_nil d))
    (fun d hd => absurd hd (List.not_mem_nil d))

/-- C9 counterexample: a raising backend and a legitimately-empty backend
produce exactly the same returned mapping (and the same optional record):
the returned value does not distinguish backend failure from not-found. -/
theorem backend_failure_same_value_as_not_found :
    (get_resume_by_role failingSearch true "AI Engineer").2 =
      (get_resume_by_role emptySearch true "AI Engineer").2 ∧
    (extract_resume_info failingSearch "mixed.pdf").2 =
      (extract_resume_info emptySearch "mixed.pdf").2 :=
  ⟨rfl, rfl⟩

/-- C9 amended: when the backend raises, both utilities catch the exception
and emit an error message through the `st.error` UI side channel, but RETURN
the very same empty mapping / `None` as the not-found outcome; the failure is
distinguishable only in the emitted message, not in the returned value. -/
theorem backend_failure_reported_via_ui_only (search : Search) (role fn e : String)
    (h : ∀ q k f, search q k f = .error e) :
    get_resume_by_role search true role =
      (["Error retrieving resumes by role: " ++ e], []) ∧
    extract_resume_info search fn =
      (["Error extracting resume info: " ++ e], none) := by
  constructor
  · unfold get_resume_by_role
    rw [h]
  · unfold extract_resume_info
    rw [h]

/-- Witness for the amended C9: the always-raising backend. -/
theorem backend_failure_reported_via_ui_only_witness :
    get_resume_by_role failingSearch true "AI Engineer" =
      (["Error retrieving resumes by role: backend unavailable"], []) ∧
    extract_resume_info failingSearch "mixed.pdf" =
      (["Error extracting resume info: backend unavailable"], none) :=
  backend_failure_reported_via_ui_only failingSearch "AI Engineer" "mixed.pdf"
    "backend unavailable" (fun _ _ _ => rfl)

/-- C8 counterexample: `extract_resume_info` has NO fallback search tier:
with `tieredSearch`, a chunk of "mixed.pdf" is available to the broadened
call shape that `get_resume_by_role`'s fallback tier uses (k = 100, no
filter), yet `extract_resume_info` still returns the not-found value. -/
theorem extract_resume_info_no_fallback_counterexample :
    extract_resume_info tieredSearch "mixed.pdf" = ([], none) ∧
    tieredSearch "mixed.pdf" 100 none = .ok [docMixA] ∧
    docMixA.filename = some "mixed.pdf" :=
  ⟨rfl, rfl, rfl⟩

/-- C8 amended: `extract_resume_info` uses a single over-fetch-then-exact-
filter pass keyed by filename (k = 20), with no fallback second tier; it
returns not-found (`none`, with no error) when no retrieved chunk's filename
metadata equals the given filename, and otherwise a record with the
filename, the first matching chunk's role, the concatenated content of the
matching chunks, and their count. -/
theorem extract_resume_info_single_tier_contract (search : Search) (fn : String)
    (docs : List Doc)
    (h : search ("filename " ++ fn) 20 none = .ok docs) :
    (docs.filter (fun x => decide (x.filename = some fn)) = [] →
      extract_resume_info search fn = ([], none)) ∧
    (∀ d rest, docs.filter (fun x => decide (x.filename = some fn)) = d :: rest →
      extract_resume_info search fn =
        ([], some { filename := fn
                  , role := d.role.getD "Unknown Role"
                  , content := String.intercalate " " ((d :: rest).map Doc.page_content)
                  , chunks := (d :: rest).length })) := by
  constructor
  · intro hf
    unfold extract_resume_info
    rw [h]
    dsimp only
    rw [hf]
  · intro d rest hf
    unfold extract_resume_info
    rw [h]
    dsimp only
    rw [hf]

/-- Witness for the amended C8: the mixed-role backend yields the record for
"mixed.pdf" with the first chunk's role, joined content, and chunk count. -/
theorem extract_resume_info_single_tier_contract_witness :
    extract_resume_info mixedSearch "mixed.pdf" =
      ([], some { filename := "mixed.pdf", role := "AI Engineer",
                  content := "page one page two", chunks := 2 }) :=
  (extract_resume_info_single_tier_contract mixedSearch "mixed.pdf"
    [docMixA, docMixB] rfl).2 docMixA [docMixB] (by decide)

/-- C10: the role `extract_resume_info` reports is the role metadata of the
FIRST matching chunk in retrieval order (defaulting to "Unknown Role" when
that chunk lacks a role key) — no majority or document-level resolution over
later matching chunks. -/
theorem extract_resume_info_first_chunk_role (search : Search) (fn : String)
    (docs : List Doc) (d : Doc) (rest : List Doc)
    (h : search ("filename " ++ fn) 20 none = .ok docs)
    (hf : docs.filter (fun x => decide (x.filename = some fn)) = d :: rest) :
    (extract_resume_info search fn).2.map ResumeInfo.role =
      some (d.role.getD "Unknown Role") := by
  unfold extract_resume_info
  rw [h]
  dsimp only
  rw [hf]
  rfl

/-- Witness for C10: with two same-file chunks tagged AI Engineer then Data
Scientist (in retrieval order), the reported role is the first chunk's. -/
theorem extract_resume_info_first_chunk_role_witness :
    (extract_resume_info mixedSearch "mixed.pdf").2.map ResumeInfo.role =
      some "AI Engineer" :=
  extract_resume_info_first_chunk_role mixedSearch "mixed.pdf"
    [docMixA, docMixB] docMixA [docMixB] rfl (by decide)

/-- `nameMatches` with an empty name tests no component, so it never holds. -/
theorem nameMatches_empty (d : Doc) : nameMatches "" d = false := rfl

/-- C4: when no two-consecutive-capitalized-word name is extracted from the
query, or when narrowing by the extracted name matches zero chunks,
`filter_sources_by_context` returns the original candidate chunks unchanged
(never an empty result in place of a non-empty input). -/
theorem filter_sources_returns_original (sources : List Doc) (query : String)
    (h : extract_person_name_from_query query = none ∨
         ∀ p, extract_person_name_from_query query = some p →
           sources.filter (nameMatches p) = []) :
    filter_sources_by_context sources query none = sources := by
  cases hx : extract_person_name_from_query query with
  | none => simp [filter_sources_by_context, hx, strOptTruthy]
  | some p =>
    have hf : sources.filter (nameMatches p) = [] := by
      rcases h with h | h
      · rw [h] at hx; exact absurd hx (by simp)
      · exact h p hx
    by_cases hp : p = ""
    · subst hp
      simp [filter_sources_by_context, hx, strOptTruthy]
    · simp [filter_sources_by_context, hx, strOptTruthy, hp, hf]

/-- Witness for C4: a query with no capitalized-pair pattern leaves the
sources untouched. -/
theorem filter_sources_returns_original_witness :
    filter_sources_by_context [docJaneSmith, docJohnDoe] "what skills are listed" none =
      [docJaneSmith, docJohnDoe] :=
  filter_sources_returns_original [docJaneSmith, docJohnDoe] "what skills are listed"
    (Or.inl (by decide))

/-- C5: when a name is extracted from the query and at least one candidate
chunk's filename contains, case-insensitively, some whitespace-delimited
component of it, `filter_sources_by_context` returns exactly the candidates
whose filename does. -/
theorem filter_sources_narrows_to_matches (sources : List Doc) (query p : String)
    (hp : extract_person_name_from_query query = some p)
    (hne : sources.filter (nameMatches p) ≠ []) :
    filter_sources_by_context sources query none = sources.filter (nameMatches p) := by
  have hp0 : p ≠ "" := by
    intro hpe
    subst hpe
    exact hne (List.filter_eq_nil_iff.mpr (fun d _ => by simp [nameMatches_empty]))
  simp [filter_sources_by_context, hp, strOptTruthy, hp0,
    List.isEmpty_iff, hne]

/-- Witness for C5: the spec's scenario, a query naming Jane Smith narrows
two chunks down to the one from "jane_smith_resume.pdf". -/
theorem filter_sources_narrows_to_matches_witness :
    filter_sources_by_context [docJaneSmith, docJohnDoe]
      "Tell me about Jane Smith experience" none = [docJaneSmith] :=
  filter_sources_narrows_to_matches [docJaneSmith, docJohnDoe]
    "Tell me about Jane Smith experience" "Jane Smith" (by decide) (by decide)

/-- Modelled from the spec: the text segmenter. `process_pdfs`
(src/document_processor/loader.py lines 56-64) delegates splitting to the
external langchain `RecursiveCharacterTextSplitter(chunk_size=1000,
chunk_overlap=200)`, whose code is not part of this repository; this
definition follows the spec's §4.1 contract — chunks of the fixed target
size 1000 with a fixed 200-character overlap between consecutive chunks,
cutting at character granularity, empty documents yielding zero chunks —
over the document's character list: each chunk starts 800 characters after
its predecessor, repeating the predecessor's last 200 characters. -/
def segmentChars (l : List Char) : List (List Char) :=
  if l.isEmpty then []
  else if _h : l.length ≤ 1000 then [l]
  else l.take 1000 :: segmentChars (l.drop 800)
termination_by l.length
decreasing_by simp only [List.length_drop]; omega

/-- Modelled from the spec: `segment` on one document's text. -/
def segment (text : String) : List String :=
  (segmentChars text.toList).map String.mk

/-- Concatenate emitted chunks in order, removing the declared 200-character
overlap from every chunk after the first. -/
def joinOverlap : List (List Char) → List Char
  | [] => []
  | c :: cs => c ++ (cs.map (List.drop 200)).flatten

/-- Dropping the 200-character overlap from every chunk of `segmentChars l`
and concatenating reproduces `l` from position 200 on. -/
theorem segmentChars_drop_flatten :
    ∀ (n : Nat) (l : List Char), l.length ≤ n → l ≠ [] →
      ((segmentChars l).map (List.drop 200)).flatten = l.drop 200 := by
  intro n
  induction n with
  | zero =>
    intro l hl hne
    exact absurd (List.eq_nil_of_length_eq_zero (Nat.le_zero.mp hl)) hne
  | succ n ih =>
    intro l hl hne
    rw [segmentChars]
    rw [if_neg (by simpa using hne)]
    by_cases hlen : l.length ≤ 1000
    · rw [dif_pos hlen]
      simp
    · rw [dif_neg hlen]
      have hd800 : l.drop 800 ≠ [] := by
        intro hd
        have := congrArg List.length hd
        simp only [List.length_drop, List.length_nil] at this
        omega
      have hrec := ih (l.drop 800) (by simp only [List.length_drop]; omega) hd800
      simp only [List.map_cons, List.flatten_cons, hrec]
      rw [List.drop_drop, List.drop_take]
      have h1000 : (200 : Nat) + 800 = 1000 := rfl
      calc (l.drop 200).take 800 ++ l.drop (200 + 800)
          = (l.drop 200).take 800 ++ (l.drop 200).drop 800 := by
            rw [List.drop_drop]
      _ = l.drop 200 := List.take_append_drop 800 (l.drop 200)

/-- C7 (against the spec-modelled segmenter `segmentChars`): segmenting a
document with non-empty text yields at least one chunk, and concatenating
the chunks' texts in order with the declared 200-character overlaps removed
reproduces the document's text exactly. -/
theorem segment_reconstructs (text : String) (h : text.toList ≠ []) :
    segment text ≠ [] ∧
    joinOverlap ((segment text).map String.toList) = text.toList := by
  have hmk : (segment text).map String.toList = segmentChars text.toList := by
    unfold segment
    rw [List.map_map]
    exact List.map_id'' (fun _ => rfl) _
  rw [hmk]
  unfold segment
  rw [segmentChars, if_neg (by simpa using h)]
  by_cases hlen : text.toList.length ≤ 1000
  · rw [dif_pos hlen]
    constructor
    · simp
    · simp [joinOverlap]
  · rw [dif_neg hlen]
    constructor
    · simp
    · have hd800 : text.toList.drop 800 ≠ [] := by
        intro hd
        have := congrArg List.length hd
        simp only [List.length_drop, List.length_nil] at this
        omega
      show text.toList.take 1000 ++
          ((segmentChars (text.toList.drop 800)).map (List.drop 200)).flatten =
        text.toList
      rw [segmentChars_drop_flatten (text.toList.drop 800).length _ le_rfl hd800]
      rw [List.drop_drop]
      exact List.take_append_drop 1000 text.toList

/-- Witness for C7: a short non-empty text. -/
theorem segment_reconstructs_witness :
    segment "abc" ≠ [] ∧
    joinOverlap ((segment "abc").map String.toList) = "abc".toList :=
  segment_reconstructs "abc" (by decide)

end ResumeAssistant
